import Mathlib

/-!
Verification of the z3.rs wrapper layer (crate z3, files src/ast.rs, src/sort.rs,
src/pattern.rs, src/optimize.rs, src/params.rs, src/datatype_builder.rs,
src/context.rs) against its natural-language specification.

The foreign engine is modelled as an explicit state: a table of allocated
nodes (a raw handle is a positive index into the table; the handle 0 plays
the role of the C null pointer), together with traces of the reference-count
calls made (Z3_inc_ref and Z3_dec_ref). A `fail` flag models the one engine
behaviour the specification cares about at the wrapper boundary: a foreign
constructor call may return the null handle when the engine is in an
internal error state.

Each wrapper function of the Rust crate is translated statement by
statement. A Rust `assert!` that fails, or an `unwrap()` that panics, is
modelled as the function returning `none` (abort at the point of
detection); a function with no assertion in its body is total on the model.
-/

namespace Z3Model

/-- A raw foreign handle. `0` is the null handle. -/
abbrev Handle := Nat

/-- Content of an engine node. Term nodes, sort nodes, pattern nodes and
declaration nodes all live in one table, mirroring the engine view in which
every handle can be cast to an ast handle (Z3_sort_to_ast and friends are
the identity on the handle value). -/
inductive Node
  /-- An integer numeral term carrying its value, as created by Z3_mk_int64
  and read back by Z3_get_numeral_int64. -/
  | intNumeral (v : Int) (sortH : Handle)
  /-- A generic application term produced by a term constructor such as
  Z3_mk_eq, Z3_mk_ite, Z3_mk_and; `op` names the foreign constructor. -/
  | app (op : String) (args : List Handle)
  /-- A quantifier term, as created by Z3_mk_forall_const or
  Z3_mk_exists_const. -/
  | quant (isForall : Bool) (weight : Nat) (bounds : List Handle)
      (patterns : List Handle) (body : Handle)
  /-- The boolean sort. -/
  | boolSort
  /-- The integer sort. -/
  | intSort
  /-- The real sort. -/
  | realSort
  /-- A bit-vector sort of the given width. -/
  | bvSort (width : Nat)
  /-- An array sort over the given domain and range sort handles. -/
  | arraySort (domain range : Handle)
  /-- A set sort over the given element sort handle. -/
  | setSort (elt : Handle)
  /-- An uninterpreted sort named by a symbol. -/
  | uninterpSort (sym : String)
  /-- A quantifier pattern over the given term handles. -/
  | patternNode (terms : List Handle)
  /-- A datatype sort with the given name. -/
  | datatypeSort (name : String)
  /-- A constructor declaration recovered by Z3_query_constructor. -/
  | ctorDecl (name : String) (arity : Nat)
  /-- A tester declaration recovered by Z3_query_constructor. -/
  | testerDecl (recognizerName : String)
  /-- A field accessor declaration recovered by Z3_query_constructor,
  identified by its constructor name and field name. -/
  | accessorDecl (ctorName : String) (fieldName : String)
  deriving Repr, DecidableEq

/-- A staged constructor descriptor, as created by Z3_mk_constructor and
consumed by Z3_mk_datatype / Z3_query_constructor / Z3_del_constructor.
In the engine this is an opaque Z3_constructor handle; here descriptors
live in their own table. -/
structure ConstructorDescr where
  name : String
  recognizerName : String
  fieldNames : List String
  fieldSorts : List Handle
  deriving Repr, DecidableEq

/-- The modelled engine state. `nodes` is the allocation table (handle h
holds node `nodes[h-1]`), `ctors` the table of staged constructor
descriptors, `incs` and `decs` the traces of Z3_inc_ref and Z3_dec_ref
calls, `freedCtors` the trace of Z3_del_constructor calls, and `fail`
makes every allocating foreign call return the null handle, modelling an
engine-internal failure. -/
structure EngineState where
  nodes : List Node
  ctors : List ConstructorDescr
  incs : List Handle
  decs : List Handle
  freedCtors : List Handle
  fail : Bool
  deriving Repr, DecidableEq

/-- The empty engine state of a healthy engine. -/
def EngineState.init : EngineState :=
  { nodes := [], ctors := [], incs := [], decs := [], freedCtors := [], fail := false }

/-- Allocate a node; returns the fresh non-null handle, or the null handle
when the engine is in its failure state. -/
def EngineState.alloc (st : EngineState) (n : Node) : EngineState × Handle :=
  if st.fail then (st, 0)
  else ({ st with nodes := st.nodes ++ [n] }, st.nodes.length + 1)

/-- Look up the node stored at a handle. -/
def EngineState.nodeAt (st : EngineState) (h : Handle) : Option Node :=
  if h = 0 then none else st.nodes.get? (h - 1)

/-- Z3_inc_ref: record one reference-count increment on a handle. -/
def EngineState.incRef (st : EngineState) (h : Handle) : EngineState :=
  { st with incs := st.incs ++ [h] }

/-- Z3_dec_ref: record one reference-count decrement on a handle. -/
def EngineState.decRef (st : EngineState) (h : Handle) : EngineState :=
  { st with decs := st.decs ++ [h] }

/-- Number of recorded increments on a handle. -/
def incCount (st : EngineState) (h : Handle) : Nat := st.incs.count h

/-- Number of recorded decrements on a handle. -/
def decCount (st : EngineState) (h : Handle) : Nat := st.decs.count h

/-!  Wrapper data model (src/lib.rs). Each wrapper other than Context
carries a back-reference to the owning Context and the raw handle. A
Context is identified by its raw Z3_context value, so the back-reference
is modelled as that value; the comparison written in Rust as
`a.ctx.z3_ctx == ctx.z3_ctx` is equality of these fields. -/

/-- Wrapper struct Ast: owning context id plus the owned term handle. -/
structure AstW where
  ctx : Nat
  z3_ast : Handle
  deriving Repr, DecidableEq

/-- Wrapper struct Sort. -/
structure SortW where
  ctx : Nat
  z3_sort : Handle
  deriving Repr, DecidableEq

/-- Wrapper struct Pattern. -/
structure PatternW where
  ctx : Nat
  z3_pattern : Handle
  deriving Repr, DecidableEq

/-- Wrapper struct FuncDecl. -/
structure FuncDeclW where
  ctx : Nat
  z3_func_decl : Handle
  deriving Repr, DecidableEq

/-!  Foreign term constructors used by the Ast operations. Each allocates
one node. The context argument is the raw context value passed first in
every C call; the single-table model records the call but does not key the
table by it. -/

/-- Z3_mk_eq. -/
def Z3_mk_eq (st : EngineState) (_ctx : Nat) (a b : Handle) : EngineState × Handle :=
  st.alloc (Node.app "eq" [a, b])

/-- Z3_mk_ite. -/
def Z3_mk_ite (st : EngineState) (_ctx : Nat) (a b c : Handle) : EngineState × Handle :=
  st.alloc (Node.app "ite" [a, b, c])

/-- Z3_mk_and (variadic). -/
def Z3_mk_and (st : EngineState) (_ctx : Nat) (args : List Handle) : EngineState × Handle :=
  st.alloc (Node.app "and" args)

/-- Z3_mk_distinct (variadic). -/
def Z3_mk_distinct (st : EngineState) (_ctx : Nat) (args : List Handle) : EngineState × Handle :=
  st.alloc (Node.app "distinct" args)

/-- Z3_mk_bvadd_no_overflow (binary with a boolean flag). -/
def Z3_mk_bvadd_no_overflow (st : EngineState) (_ctx : Nat) (a b : Handle) (signed : Bool) :
    EngineState × Handle :=
  st.alloc (Node.app (if signed then "bvadd_no_overflow_s" else "bvadd_no_overflow_u") [a, b])

/-- Z3_mk_not (unary). -/
def Z3_mk_not (st : EngineState) (_ctx : Nat) (a : Handle) : EngineState × Handle :=
  st.alloc (Node.app "not" [a])

namespace AstImpl

/-- Ast::new (src/ast.rs lines 69-79): assert the handle is non-null,
increment its reference count, wrap it. The failed assertion is the
`none` case. -/
def new (ctx : Nat) (ast : Handle) (st : EngineState) : Option (AstW × EngineState) :=
  if ast = 0 then none
  else some (⟨ctx, ast⟩, st.incRef ast)

/-- Clone for Ast (src/ast.rs lines 519-524): a clone is Ast::new on the
same context and handle, hence a fresh increment and a second owner. -/
def clone (a : AstW) (st : EngineState) : Option (AstW × EngineState) :=
  new a.ctx a.z3_ast st

/-- Drop for Ast (src/ast.rs lines 526-533): one Z3_dec_ref on the owned
handle. -/
def drop (a : AstW) (st : EngineState) : EngineState :=
  st.decRef a.z3_ast

/-- The binop! macro shape (src/ast.rs lines 23-31), parameterized by the
foreign constructor exactly as the macro is by $z3fn: call the foreign
function on the receiver context with both raw handles, wrap with
Ast::new. The body contains no assertion of its own. -/
def binop (z3fn : EngineState → Nat → Handle → Handle → EngineState × Handle)
    (self other : AstW) (st : EngineState) : Option (AstW × EngineState) :=
  let r := z3fn st self.ctx self.z3_ast other.z3_ast
  new self.ctx r.2 r.1

/-- The binop_bool! macro shape (src/ast.rs lines 33-41). -/
def binop_bool
    (z3fn : EngineState → Nat → Handle → Handle → Bool → EngineState × Handle)
    (self other : AstW) (b : Bool) (st : EngineState) : Option (AstW × EngineState) :=
  let r := z3fn st self.ctx self.z3_ast other.z3_ast b
  new self.ctx r.2 r.1

/-- The trinop! macro shape (src/ast.rs lines 43-51). -/
def trinop (z3fn : EngineState → Nat → Handle → Handle → Handle → EngineState × Handle)
    (self a b : AstW) (st : EngineState) : Option (AstW × EngineState) :=
  let r := z3fn st self.ctx self.z3_ast a.z3_ast b.z3_ast
  new self.ctx r.2 r.1

/-- The varop! macro shape (src/ast.rs lines 53-66): build the argument
vector from the receiver followed by the operands, assert the length fits
a 32-bit count, call the foreign function, wrap with Ast::new. -/
def varop (z3fn : EngineState → Nat → List Handle → EngineState × Handle)
    (self : AstW) (other : List AstW) (st : EngineState) : Option (AstW × EngineState) :=
  let tmp := self.z3_ast :: other.map (fun a => a.z3_ast)
  if tmp.length ≤ 0xffffffff then
    let r := z3fn st self.ctx tmp
    new self.ctx r.2 r.1
  else none

/-- binop!(_eq, Z3_mk_eq) (src/ast.rs line 305). -/
def eq (self other : AstW) (st : EngineState) : Option (AstW × EngineState) :=
  binop Z3_mk_eq self other st

/-- trinop!(ite, Z3_mk_ite) (src/ast.rs line 286). -/
def ite (self a b : AstW) (st : EngineState) : Option (AstW × EngineState) :=
  trinop Z3_mk_ite self a b st

/-- varop!(and, Z3_mk_and) (src/ast.rs line 290). -/
def and (self : AstW) (other : List AstW) (st : EngineState) : Option (AstW × EngineState) :=
  varop Z3_mk_and self other st

/-- varop!(distinct, Z3_mk_distinct) (src/ast.rs line 283). -/
def distinct (self : AstW) (other : List AstW) (st : EngineState) :
    Option (AstW × EngineState) :=
  varop Z3_mk_distinct self other st

/-- binop_bool!(bvadd_no_overflow, Z3_mk_bvadd_no_overflow) (line 367). -/
def bvadd_no_overflow (self other : AstW) (b : Bool) (st : EngineState) :
    Option (AstW × EngineState) :=
  binop_bool Z3_mk_bvadd_no_overflow self other b st

end AstImpl

/-!  Foreign sort constructors (single foreign calls; Z3_sort_to_ast is the
identity on the handle value). -/

/-- Z3_mk_uninterpreted_sort. -/
def Z3_mk_uninterpreted_sort (st : EngineState) (_ctx : Nat) (sym : String) :
    EngineState × Handle :=
  st.alloc (Node.uninterpSort sym)

/-- Z3_mk_bool_sort. -/
def Z3_mk_bool_sort (st : EngineState) (_ctx : Nat) : EngineState × Handle :=
  st.alloc Node.boolSort

/-- Z3_mk_int_sort. -/
def Z3_mk_int_sort (st : EngineState) (_ctx : Nat) : EngineState × Handle :=
  st.alloc Node.intSort

/-- Z3_mk_real_sort. -/
def Z3_mk_real_sort (st : EngineState) (_ctx : Nat) : EngineState × Handle :=
  st.alloc Node.realSort

/-- Z3_mk_bv_sort. -/
def Z3_mk_bv_sort (st : EngineState) (_ctx : Nat) (sz : Nat) : EngineState × Handle :=
  st.alloc (Node.bvSort sz)

/-- Z3_mk_array_sort. -/
def Z3_mk_array_sort (st : EngineState) (_ctx : Nat) (domain range : Handle) :
    EngineState × Handle :=
  st.alloc (Node.arraySort domain range)

/-- Z3_mk_set_sort. -/
def Z3_mk_set_sort (st : EngineState) (_ctx : Nat) (elt : Handle) : EngineState × Handle :=
  st.alloc (Node.setSort elt)

/-- Z3_mk_pattern. -/
def Z3_mk_pattern (st : EngineState) (_ctx : Nat) (terms : List Handle) :
    EngineState × Handle :=
  st.alloc (Node.patternNode terms)

/-- Z3_mk_int64: create an integer numeral term of the given sort. The
value parameter is a C long long, hence an integer in the signed 64-bit
range by typing. -/
def Z3_mk_int64 (st : EngineState) (_ctx : Nat) (v : Int) (sortH : Handle) :
    EngineState × Handle :=
  st.alloc (Node.intNumeral v sortH)

/-- Z3_get_numeral_int64: succeeds with the value exactly when the handle
holds an integer numeral whose value fits in a signed 64-bit integer;
returns false (here: none) otherwise. -/
def Z3_get_numeral_int64 (st : EngineState) (_ctx : Nat) (h : Handle) : Option Int :=
  match st.nodeAt h with
  | some (Node.intNumeral v _) =>
      if -(2 ^ 63) ≤ v ∧ v < 2 ^ 63 then some v else none
  | _ => none

/-- Z3_mk_forall_const: build a universal quantifier node. -/
def Z3_mk_forall_const (st : EngineState) (_ctx : Nat) (weight : Nat)
    (bounds : List Handle) (patterns : List Handle) (body : Handle) :
    EngineState × Handle :=
  st.alloc (Node.quant true weight bounds patterns body)

/-- Z3_mk_exists_const: build an existential quantifier node. -/
def Z3_mk_exists_const (st : EngineState) (_ctx : Nat) (weight : Nat)
    (bounds : List Handle) (patterns : List Handle) (body : Handle) :
    EngineState × Handle :=
  st.alloc (Node.quant false weight bounds patterns body)

namespace SortImpl

/-- Sort::uninterpreted (src/sort.rs lines 12-17): one foreign call, the
returned handle is wrapped directly. The source performs neither a null
check nor a Z3_inc_ref here, unlike every sibling constructor. -/
def uninterpreted (ctx : Nat) (sym : String) (st : EngineState) : SortW × EngineState :=
  let r := Z3_mk_uninterpreted_sort st ctx sym
  (⟨ctx, r.2⟩, r.1)

/-- Sort::bool (src/sort.rs lines 19-28): foreign call, then
Z3_inc_ref on Z3_sort_to_ast of the result, then wrap. No null check. -/
def bool (ctx : Nat) (st : EngineState) : SortW × EngineState :=
  let r := Z3_mk_bool_sort st ctx
  (⟨ctx, r.2⟩, r.1.incRef r.2)

/-- Sort::int (src/sort.rs lines 30-39). -/
def int (ctx : Nat) (st : EngineState) : SortW × EngineState :=
  let r := Z3_mk_int_sort st ctx
  (⟨ctx, r.2⟩, r.1.incRef r.2)

/-- Sort::real (src/sort.rs lines 41-50). -/
def real (ctx : Nat) (st : EngineState) : SortW × EngineState :=
  let r := Z3_mk_real_sort st ctx
  (⟨ctx, r.2⟩, r.1.incRef r.2)

/-- Sort::bitvector (src/sort.rs lines 52-61). -/
def bitvector (ctx : Nat) (sz : Nat) (st : EngineState) : SortW × EngineState :=
  let r := Z3_mk_bv_sort st ctx sz
  (⟨ctx, r.2⟩, r.1.incRef r.2)

/-- Sort::array (src/sort.rs lines 63-72). -/
def array (ctx : Nat) (domain range : SortW) (st : EngineState) : SortW × EngineState :=
  let r := Z3_mk_array_sort st ctx domain.z3_sort range.z3_sort
  (⟨ctx, r.2⟩, r.1.incRef r.2)

/-- Sort::set (src/sort.rs lines 74-83). -/
def set (ctx : Nat) (elt : SortW) (st : EngineState) : SortW × EngineState :=
  let r := Z3_mk_set_sort st ctx elt.z3_sort
  (⟨ctx, r.2⟩, r.1.incRef r.2)

/-- Drop for Sort (src/sort.rs lines 227-236): one Z3_dec_ref on
Z3_sort_to_ast of the owned handle. -/
def drop (s : SortW) (st : EngineState) : EngineState :=
  st.decRef s.z3_sort

end SortImpl

namespace PatternImpl

/-- Pattern::new (src/pattern.rs lines 5-16): assert every term shares the
context, collect the raw term handles, one foreign call, Z3_inc_ref on the
result, wrap. No null check on the returned handle. -/
def new (ctx : Nat) (terms : List AstW) (st : EngineState) :
    Option (PatternW × EngineState) :=
  if terms.all (fun a => a.ctx = ctx) then
    let r := Z3_mk_pattern st ctx (terms.map (fun a => a.z3_ast))
    some (⟨ctx, r.2⟩, r.1.incRef r.2)
  else none

/-- Drop for Pattern (src/pattern.rs lines 18-22). -/
def drop (p : PatternW) (st : EngineState) : EngineState :=
  st.decRef p.z3_pattern

end PatternImpl

namespace AstImpl

/-- Ast::from_i64 (src/ast.rs lines 133-138): build the integer sort for
the context, one Z3_mk_int64 call with the value, drop the temporary sort
wrapper at the end of the block, wrap the numeral with Ast::new. The value
parameter is an i64, hence constrained to the signed 64-bit range. -/
def from_i64 (ctx : Nat) (i : Int) (st : EngineState) : Option (AstW × EngineState) :=
  let s := SortImpl.int ctx st
  let r := Z3_mk_int64 s.2 ctx i s.1.z3_sort
  new ctx r.2 (SortImpl.drop s.1 r.1)

/-- Ast::as_i64 (src/ast.rs lines 197-206): Z3_get_numeral_int64 on the
owned handle; Some of the out-parameter on success, None on failure. -/
def as_i64 (a : AstW) (st : EngineState) : Option Int :=
  Z3_get_numeral_int64 st a.ctx a.z3_ast

/-- Ast::forall_const_weight_patterns (src/ast.rs lines 450-479): assert
all bounds, all patterns and the body share the context; with no bounds
return a clone of the body; otherwise collect raw handles and build the
quantifier with Z3_mk_forall_const, converting weight and the list length
to 32-bit counts (the unwrap on the conversion aborts past 2^32 - 1). -/
def forall_const_weight_patterns (ctx : Nat) (weight : Nat) (bounds : List AstW)
    (patterns : List PatternW) (body : AstW) (st : EngineState) :
    Option (AstW × EngineState) :=
  if bounds.all (fun a => a.ctx = ctx) then
    if patterns.all (fun p => p.ctx = ctx) then
      if ctx = body.ctx then
        if bounds.isEmpty then clone body st
        else
          if weight ≤ 0xffffffff ∧ bounds.length ≤ 0xffffffff
              ∧ patterns.length ≤ 0xffffffff then
            let r := Z3_mk_forall_const st ctx weight
              (bounds.map (fun a => a.z3_ast))
              (patterns.map (fun p => p.z3_pattern)) body.z3_ast
            new ctx r.2 r.1
          else none
      else none
    else none
  else none

/-- Ast::forall_const (src/ast.rs lines 446-448): defined as the weighted
and pattern form at weight 0 with no patterns. -/
def forall_const (ctx : Nat) (bounds : List AstW) (body : AstW) (st : EngineState) :
    Option (AstW × EngineState) :=
  forall_const_weight_patterns ctx 0 bounds [] body st

/-- Ast::exists_const (src/ast.rs lines 481-502): assert all bounds and
the body share the context; with no bounds return a clone of the body;
otherwise build the quantifier with Z3_mk_exists_const at weight 0 with a
null pattern array. -/
def exists_const (ctx : Nat) (bounds : List AstW) (body : AstW) (st : EngineState) :
    Option (AstW × EngineState) :=
  if bounds.all (fun a => a.ctx = ctx) then
    if ctx = body.ctx then
      if bounds.isEmpty then clone body st
      else
        if bounds.length ≤ 0xffffffff then
          let r := Z3_mk_exists_const st ctx 0
            (bounds.map (fun a => a.z3_ast)) [] body.z3_ast
          new ctx r.2 r.1
        else none
    else none
  else none

end AstImpl

/-- The three-valued engine decision type Z3_lbool with values Z3_L_FALSE,
Z3_L_UNDEF, Z3_L_TRUE. -/
inductive Lbool
  | lFalse
  | lUndef
  | lTrue
  deriving Repr, DecidableEq

namespace OptimizeImpl

/-- Optimize::check (src/optimize.rs lines 84-86): the wrapper returns the
boolean comparison of the engine decision with Z3_L_TRUE. The engine
decision itself is the value returned by Z3_optimize_check, taken here as
the argument. -/
def check (result : Lbool) : Bool :=
  result = Lbool.lTrue

end OptimizeImpl

/-- Outcome of running a Display implementation. The crash case stands for
undefined behaviour reached before any value is returned (dereference of a
null pointer inside CStr::from_ptr, which computes the string length from
the pointer). -/
inductive FmtOutcome
  | ok (s : String)
  | err
  | crash
  deriving Repr, DecidableEq

namespace AstImpl

/-- Display for Ast (src/ast.rs lines 505-517), as a function of the raw
pointer returned by Z3_ast_to_string (`none` is the null sentinel). The
source first runs CStr::from_ptr on the pointer, which reads the string
length from it — on the null pointer this dereferences null before any
check runs. Only then does it test `p.as_ptr().is_null()`; for a
constructed CStr that pointer is the original non-null pointer, so the
error branch is unreachable. The to_str decoding step is abstracted away
by taking the pointed-to text as an already decoded string. -/
def fmt (toStringResult : Option String) : FmtOutcome :=
  match toStringResult with
  | none => FmtOutcome.crash
  | some s => FmtOutcome.ok s

end AstImpl

namespace ParamsImpl

/-- Display for Params (src/params.rs lines 56-69), as a function of the
raw pointer returned by Z3_params_to_string (`none` is the null sentinel).
The source tests `p.is_null()` before CStr::from_ptr, returning a
formatter error on the null sentinel. -/
def fmt (toStringResult : Option String) : FmtOutcome :=
  match toStringResult with
  | none => FmtOutcome.err
  | some s => FmtOutcome.ok s

end ParamsImpl

/-!  Datatype construction (src/datatype_builder.rs and src/lib.rs). -/

/-- Z3_mk_constructor: stage a constructor descriptor from the variant
name symbol, the recognizer name symbol, and the parallel field name and
field sort arrays; returns an opaque descriptor handle (an index into the
descriptor table). -/
def Z3_mk_constructor (st : EngineState) (_ctx : Nat) (name recognizerName : String)
    (fieldNames : List String) (fieldSorts : List Handle) : EngineState × Handle :=
  if st.fail then (st, 0)
  else
    ({ st with ctors := st.ctors ++ [⟨name, recognizerName, fieldNames, fieldSorts⟩] },
      st.ctors.length + 1)

/-- Look up the staged descriptor at a descriptor handle. -/
def EngineState.ctorAt (st : EngineState) (h : Handle) : Option ConstructorDescr :=
  if h = 0 then none else st.ctors.get? (h - 1)

/-- Z3_del_constructor: release a consumed descriptor (recorded in the
trace; the claims under verification do not involve use after free of a
descriptor, so the table entry is kept). -/
def Z3_del_constructor (st : EngineState) (_ctx : Nat) (h : Handle) : EngineState :=
  { st with freedCtors := st.freedCtors ++ [h] }

/-- Z3_mk_datatype: materialize one datatype sort from the staged
descriptor handles. -/
def Z3_mk_datatype (st : EngineState) (_ctx : Nat) (name : String)
    (_constructors : List Handle) : EngineState × Handle :=
  st.alloc (Node.datatypeSort name)

/-- Allocate the accessor declarations of one constructor, one per field
name in field order. -/
def allocAccessors (st : EngineState) (ctorName : String) :
    List String → EngineState × List Handle
  | [] => (st, [])
  | fieldName :: rest =>
    let r := st.alloc (Node.accessorDecl ctorName fieldName)
    let rr := allocAccessors r.1 ctorName rest
    (rr.1, r.2 :: rr.2)

/-- Z3_query_constructor: recover from a staged descriptor the concrete
constructor declaration, tester declaration, and one accessor declaration
per field, filling numFields accessor slots in field order. On an invalid
descriptor handle the out parameters keep their null values. -/
def Z3_query_constructor (st : EngineState) (_ctx : Nat) (h : Handle)
    (numFields : Nat) : EngineState × (Handle × Handle × List Handle) :=
  match st.ctorAt h with
  | none => (st, (0, 0, List.replicate numFields 0))
  | some d =>
    let r1 := st.alloc (Node.ctorDecl d.name d.fieldNames.length)
    let r2 := r1.1.alloc (Node.testerDecl d.recognizerName)
    let r3 := allocAccessors r2.1 d.name (d.fieldNames.take numFields)
    (r3.1, (r1.2, r2.2, r3.2))

namespace FuncDeclImpl

/-- Modelled from the spec: FuncDecl::from_raw lives in src/func_decl.rs,
which is not under src/; per the specification every constructor asserts
the foreign call returned a non-null handle and wraps the recovered
declaration with its own reference-count increment. -/
def from_raw (ctx : Nat) (decl : Handle) (st : EngineState) :
    Option (FuncDeclW × EngineState) :=
  if decl = 0 then none
  else some (⟨ctx, decl⟩, st.incRef decl)

end FuncDeclImpl

/-- Wrapper struct DatatypeVariant (src/lib.rs lines 145-149). -/
structure DatatypeVariantW where
  constructor : FuncDeclW
  tester : FuncDeclW
  accessors : List FuncDeclW
  deriving Repr, DecidableEq

/-- Wrapper struct Datatype (src/lib.rs lines 151-155). -/
structure DatatypeW where
  ctx : Nat
  sort : SortW
  variants : List DatatypeVariantW
  deriving Repr, DecidableEq

/-- Wrapper struct DatatypeBuilder (src/lib.rs lines 139-143): the staged
variants are pairs of the field count and the descriptor handle. -/
structure DatatypeBuilderW where
  ctx : Nat
  variants : List (Nat × Handle)
  deriving Repr, DecidableEq

namespace DatatypeBuilderImpl

/-- DatatypeBuilder::new (src/datatype_builder.rs lines 6-11). -/
def new (ctx : Nat) : DatatypeBuilderW :=
  ⟨ctx, []⟩

/-- DatatypeBuilder::variant (src/datatype_builder.rs lines 13-48): intern
the recognizer symbol "is-" followed by the name and the name symbol,
assert every field sort shares the builder context, collect the field name
symbols and raw sort handles, stage one constructor descriptor through
Z3_mk_constructor (the u32 conversion of the field count aborts past
2^32 - 1), and append the pair of field count and descriptor handle. -/
def variant (b : DatatypeBuilderW) (name : String) (fields : List (String × SortW))
    (st : EngineState) : Option (DatatypeBuilderW × EngineState) :=
  if fields.all (fun f => f.2.ctx = b.ctx) then
    if fields.length ≤ 0xffffffff then
      let r := Z3_mk_constructor st b.ctx name ("is-" ++ name)
        (fields.map (fun f => f.1)) (fields.map (fun f => f.2.z3_sort))
      some (⟨b.ctx, b.variants ++ [(fields.length, r.2)]⟩, r.1)
    else none
  else none

/-- The per-variant loop body of DatatypeBuilder::finish (src/datatype_builder.rs
lines 71-107): for each staged pair, query the engine for the concrete
declarations (the u32 conversion of the field count aborts past 2^32 - 1),
release the consumed descriptor, and wrap the recovered constructor,
tester and accessor declarations as FuncDecls in order. -/
def finishVariants (ctx : Nat) :
    List (Nat × Handle) → EngineState → Option (List DatatypeVariantW × EngineState)
  | [], st => some ([], st)
  | (numFields, c) :: rest, st =>
    if numFields ≤ 0xffffffff then
      let q := Z3_query_constructor st ctx c numFields
      let st1 := Z3_del_constructor q.1 ctx c
      match FuncDeclImpl.from_raw ctx q.2.1 st1 with
      | none => none
      | some (ctorF, st2) =>
        match FuncDeclImpl.from_raw ctx q.2.2.1 st2 with
        | none => none
        | some (testerF, st3) =>
          match wrapAccessors ctx q.2.2.2 st3 with
          | none => none
          | some (accs, st4) =>
            match finishVariants ctx rest st4 with
            | none => none
            | some (vs, st5) => some (⟨ctorF, testerF, accs⟩ :: vs, st5)
    else none
where
  /-- The accessors map of the loop body: FuncDecl::from_raw on each
  recovered accessor handle, in order. -/
  wrapAccessors (ctx : Nat) :
      List Handle → EngineState → Option (List FuncDeclW × EngineState)
    | [], st => some ([], st)
    | h :: hs, st =>
      match FuncDeclImpl.from_raw ctx h st with
      | none => none
      | some (f, st1) =>
        match wrapAccessors ctx hs st1 with
        | none => none
        | some (fs, st2) => some (f :: fs, st2)

/-- DatatypeBuilder::finish (src/datatype_builder.rs lines 50-114):
collect the staged descriptor handles in order, materialize the datatype
sort with Z3_mk_datatype (the u32 conversion of the count aborts past
2^32 - 1), increment the reference count of the sort, then run the
per-variant recovery loop in staging order. -/
def finish (b : DatatypeBuilderW) (name : String) (st : EngineState) :
    Option (DatatypeW × EngineState) :=
  let constructors := b.variants.map (fun i => i.2)
  if constructors.length ≤ 0xffffffff then
    let r := Z3_mk_datatype st b.ctx name constructors
    let st1 := r.1.incRef r.2
    let sort : SortW := ⟨b.ctx, r.2⟩
    match finishVariants b.ctx b.variants st1 with
    | none => none
    | some (vs, st2) => some (⟨b.ctx, sort, vs⟩, st2)
  else none

/-- Stage a list of variant declarations in order, as a caller of the
builder does: fold DatatypeBuilder::variant over the inputs. -/
def stageAll (b : DatatypeBuilderW) (inputs : List (String × List (String × SortW)))
    (st : EngineState) : Option (DatatypeBuilderW × EngineState) :=
  match inputs with
  | [] => some (b, st)
  | (name, fields) :: rest =>
    match variant b name fields st with
    | none => none
    | some (b1, st1) => stageAll b1 rest st1

/-- The whole builder protocol: stage every declared variant in call
order, then finish. -/
def buildDatatype (ctx : Nat) (inputs : List (String × List (String × SortW)))
    (name : String) (st : EngineState) : Option (DatatypeW × EngineState) :=
  match stageAll (new ctx) inputs st with
  | none => none
  | some (b, st1) => finish b name st1

end DatatypeBuilderImpl

/-!  Ownership histories over Ast wrappers, for the reference-count balance
invariant: a history is a sequence of constructions (Ast::new on a raw
handle), clones, and drops. -/

/-- One ownership event on Ast wrappers. -/
inductive AstEvent
  /-- Ast::new on a raw handle within a context. -/
  | construct (ctx : Nat) (h : Handle)
  /-- Clone::clone on a wrapper. -/
  | cloneOf (a : AstW)
  /-- Drop::drop on a wrapper. -/
  | dropOf (a : AstW)
  deriving Repr, DecidableEq

/-- Run a history of ownership events; `none` when a construction aborts on
a null handle. -/
def runAstEvents : List AstEvent → EngineState → Option EngineState
  | [], st => some st
  | AstEvent.construct c h :: es, st =>
    match AstImpl.new c h st with
    | none => none
    | some (_, st1) => runAstEvents es st1
  | AstEvent.cloneOf a :: es, st =>
    match AstImpl.clone a st with
    | none => none
    | some (_, st1) => runAstEvents es st1
  | AstEvent.dropOf a :: es, st => runAstEvents es (AstImpl.drop a st)

/-- Whether an event creates an owner of the given handle. -/
def createsOwner (h : Handle) : AstEvent → Bool
  | AstEvent.construct _ h2 => h2 == h
  | AstEvent.cloneOf a => a.z3_ast == h
  | AstEvent.dropOf _ => false

/-- Whether an event destroys an owner of the given handle. -/
def destroysOwner (h : Handle) : AstEvent → Bool
  | AstEvent.dropOf a => a.z3_ast == h
  | _ => false

/-- Number of owners of a handle created along a history. -/
def ownersCreated (es : List AstEvent) (h : Handle) : Nat :=
  (es.filter (createsOwner h)).length

/-- Number of owners of a handle destroyed along a history. -/
def ownersDropped (es : List AstEvent) (h : Handle) : Nat :=
  (es.filter (destroysOwner h)).length

/-- An engine whose allocating calls return the null handle, modelling an
engine-internal failure state. -/
def failedEngine : EngineState :=
  { EngineState.init with fail := true }

/-- The declarations recovered for one datatype variant match that
variants declaration: the constructor declaration carries the declared
variant name and field count, the tester declaration carries the
recognizer name built by the "is-" convention, and the accessors pair up
one to one, in order, with the declared fields. -/
def declsMatch (st : EngineState) (v : DatatypeVariantW)
    (inp : String × List (String × SortW)) : Prop :=
  st.nodeAt v.constructor.z3_func_decl = some (Node.ctorDecl inp.1 inp.2.length) ∧
  st.nodeAt v.tester.z3_func_decl = some (Node.testerDecl ("is-" ++ inp.1)) ∧
  List.Forall₂ (fun (a : FuncDeclW) (fld : String × SortW) =>
    st.nodeAt a.z3_func_decl = some (Node.accessorDecl inp.1 fld.1)) v.accessors inp.2

/-- The node table only grows and the failure flag is stable between two
engine states. -/
def Extends (st st2 : EngineState) : Prop :=
  st.nodes <+: st2.nodes ∧ st.ctors <+: st2.ctors ∧ st.fail = st2.fail

/-- The constructor descriptor that DatatypeBuilder::variant stages for a
declared variant: its name, the "is-" recognizer name, and the field names
and sort handles in declaration order. -/
def descrOf (inp : String × List (String × SortW)) : ConstructorDescr :=
  ⟨inp.1, "is-" ++ inp.1, inp.2.map (fun f => f.1), inp.2.map (fun f => f.2.z3_sort)⟩

/-- The staged list of a builder corresponds, in order, to the variant
declarations made so far: matching field counts within the 32-bit cap, and
descriptor handles resolving to the staged descriptors. -/
def stagedMatch (st : EngineState) (staged : List (Nat × Handle))
    (inputs : List (String × List (String × SortW))) : Prop :=
  List.Forall₂ (fun sv inp =>
    sv.1 = inp.2.length ∧ sv.1 ≤ 0xffffffff ∧ st.ctorAt sv.2 = some (descrOf inp))
    staged inputs

/-!  Helper lemmas about the reference-count traces. -/

theorem incCount_incRef (st : EngineState) (h x : Handle) :
    incCount (st.incRef h) x = incCount st x + if h = x then 1 else 0 := by
  simp [incCount, EngineState.incRef, List.count_append, List.count_singleton']

theorem decCount_incRef (st : EngineState) (h x : Handle) :
    decCount (st.incRef h) x = decCount st x := rfl

theorem decCount_decRef (st : EngineState) (h x : Handle) :
    decCount (st.decRef h) x = decCount st x + if h = x then 1 else 0 := by
  simp [decCount, EngineState.decRef, List.count_append, List.count_singleton']

theorem incCount_decRef (st : EngineState) (h x : Handle) :
    incCount (st.decRef h) x = incCount st x := rfl

end Z3Model

open Z3Model

/-- Claim C1, counterexample: the binop shape instance _eq, applied to two
operands owned by different contexts, completes and returns a wrapped
result instead of failing a precondition assertion. -/
theorem claim_C1_counterexample :
    (AstW.mk 10 5).ctx ≠ (AstW.mk 20 6).ctx ∧
    (AstImpl.eq ⟨10, 5⟩ ⟨20, 6⟩ EngineState.init).isSome = true := by
  decide

/-- Claim C1, amended: the macro-generated unary, binary, binary-with-flag,
ternary and variadic term operations perform no context check at all: they
complete whenever the engine returns a handle (healthy engine), whatever
the owning contexts of the operands; the context containment assertion is
present only in the quantifier constructors (and in Pattern::new), which do
abort on a body owned by a different context. -/
theorem claim_C1_amended :
    (∀ (self other : AstW) (st : EngineState), st.fail = false →
      (AstImpl.eq self other st).isSome = true) ∧
    (∀ (self other : AstW) (b : Bool) (st : EngineState), st.fail = false →
      (AstImpl.bvadd_no_overflow self other b st).isSome = true) ∧
    (∀ (self a b : AstW) (st : EngineState), st.fail = false →
      (AstImpl.ite self a b st).isSome = true) ∧
    (∀ (self : AstW) (other : List AstW) (st : EngineState), st.fail = false →
      other.length + 1 ≤ 0xffffffff →
      (AstImpl.and self other st).isSome = true) ∧
    (∀ (ctx : Nat) (bounds : List AstW) (body : AstW) (st : EngineState),
      body.ctx ≠ ctx → AstImpl.exists_const ctx bounds body st = none) := by
  refine ⟨?_, ?_, ?_, ?_, ?_⟩
  · intro self other st hfail
    simp [AstImpl.eq, AstImpl.binop, AstImpl.new, Z3_mk_eq, EngineState.alloc, hfail]
  · intro self other b st hfail
    simp [AstImpl.bvadd_no_overflow, AstImpl.binop_bool, AstImpl.new,
      Z3_mk_bvadd_no_overflow, EngineState.alloc, hfail]
  · intro self a b st hfail
    simp [AstImpl.ite, AstImpl.trinop, AstImpl.new, Z3_mk_ite, EngineState.alloc, hfail]
  · intro self other st hfail hlen
    simp [AstImpl.and, AstImpl.varop, AstImpl.new, Z3_mk_and, EngineState.alloc, hfail,
      Nat.succ_le_succ, hlen]
  · intro ctx bounds body st hne
    unfold AstImpl.exists_const
    by_cases hb : bounds.all (fun a => a.ctx = ctx)
    · simp [hb, Ne.symm hne]
    · simp [hb]

/-- Claim C1, amended, witness: a concrete mixed-context application of _eq
completes on the healthy empty engine. -/
theorem claim_C1_amended_witness :
    EngineState.init.fail = false ∧
    (AstImpl.eq ⟨10, 5⟩ ⟨20, 6⟩ EngineState.init).isSome = true :=
  ⟨rfl, claim_C1_amended.1 ⟨10, 5⟩ ⟨20, 6⟩ EngineState.init rfl⟩

/-- Claim C2, counterexample: on an engine whose foreign calls return the
null handle, Sort::uninterpreted, Sort::bool and Pattern::new all return
normally, wrapping the null handle (Pattern::new even increments the
reference count of null), instead of aborting before wrapping. -/
theorem claim_C2_counterexample :
    (SortImpl.uninterpreted 1 "T" failedEngine).1.z3_sort = 0 ∧
    (SortImpl.bool 1 failedEngine).1.z3_sort = 0 ∧
    PatternImpl.new 1 [] failedEngine = some (⟨1, 0⟩, failedEngine.incRef 0) := by
  decide

/-- Claim C2, amended: Ast::new asserts that the handle it is given is
non-null and aborts on null, but the Sort constructors and Pattern::new
perform no null check: they wrap exactly the handle the foreign call
returned, null or not. -/
theorem claim_C2_amended :
    (∀ (c : Nat) (st : EngineState), AstImpl.new c 0 st = none) ∧
    (∀ (c : Nat) (h : Handle) (st : EngineState), h ≠ 0 →
      AstImpl.new c h st = some (⟨c, h⟩, st.incRef h)) ∧
    (∀ (c : Nat) (st : EngineState),
      (SortImpl.bool c st).1.z3_sort = (Z3_mk_bool_sort st c).2) ∧
    (∀ (c : Nat) (sym : String) (st : EngineState),
      (SortImpl.uninterpreted c sym st).1.z3_sort = (Z3_mk_uninterpreted_sort st c sym).2) ∧
    (∀ (c : Nat) (terms : List AstW) (st : EngineState) (r : PatternW × EngineState),
      PatternImpl.new c terms st = some r →
      r.1.z3_pattern = (Z3_mk_pattern st c (terms.map (fun a => a.z3_ast))).2) := by
  refine ⟨?_, ?_, ?_, ?_, ?_⟩
  · intro c st; simp [AstImpl.new]
  · intro c h st hne; simp [AstImpl.new, hne]
  · intro c st; rfl
  · intro c sym st; rfl
  · intro c terms st r hr
    unfold PatternImpl.new at hr
    by_cases hb : terms.all (fun a => a.ctx = c)
    · simp [hb] at hr
      simp [← hr]
    · simp [hb] at hr

/-- Claim C2, amended, witness: Ast::new at the concrete non-null handle 5
wraps it with one increment. -/
theorem claim_C2_amended_witness :
    (5 : Handle) ≠ 0 ∧
    AstImpl.new 1 5 EngineState.init = some (⟨1, 5⟩, EngineState.init.incRef 5) :=
  ⟨by decide, claim_C2_amended.2.1 1 5 EngineState.init (by decide)⟩

/-- Claim C4, evaluation at the failing input: Sort::uninterpreted performs
a single foreign call but no reference-count increment, while Drop for Sort
still performs one decrement, so a construct-then-drop pair nets one
spurious release; every sibling primitive sort constructor (boolean,
integer, real, bit-vector, array, set) performs exactly one increment
matched by the one decrement of Drop. -/
theorem claim_C4_code_eval :
    (let r := SortImpl.uninterpreted 1 "T" EngineState.init
     let st2 := SortImpl.drop r.1 r.2
     r.2.nodes.length = 1 ∧ incCount st2 r.1.z3_sort = 0 ∧ decCount st2 r.1.z3_sort = 1) ∧
    (let r := SortImpl.bool 1 EngineState.init
     let st2 := SortImpl.drop r.1 r.2
     r.2.nodes.length = 1 ∧ incCount st2 r.1.z3_sort = 1 ∧ decCount st2 r.1.z3_sort = 1) ∧
    (let r := SortImpl.int 1 EngineState.init
     let st2 := SortImpl.drop r.1 r.2
     r.2.nodes.length = 1 ∧ incCount st2 r.1.z3_sort = 1 ∧ decCount st2 r.1.z3_sort = 1) ∧
    (let r := SortImpl.real 1 EngineState.init
     let st2 := SortImpl.drop r.1 r.2
     r.2.nodes.length = 1 ∧ incCount st2 r.1.z3_sort = 1 ∧ decCount st2 r.1.z3_sort = 1) ∧
    (let r := SortImpl.bitvector 1 32 EngineState.init
     let st2 := SortImpl.drop r.1 r.2
     r.2.nodes.length = 1 ∧ incCount st2 r.1.z3_sort = 1 ∧ decCount st2 r.1.z3_sort = 1) ∧
    (let r := SortImpl.array 1 ⟨1, 7⟩ ⟨1, 8⟩ EngineState.init
     let st2 := SortImpl.drop r.1 r.2
     r.2.nodes.length = 1 ∧ incCount st2 r.1.z3_sort = 1 ∧ decCount st2 r.1.z3_sort = 1) ∧
    (let r := SortImpl.set 1 ⟨1, 7⟩ EngineState.init
     let st2 := SortImpl.drop r.1 r.2
     r.2.nodes.length = 1 ∧ incCount st2 r.1.z3_sort = 1 ∧ decCount st2 r.1.z3_sort = 1) := by
  decide

/-- Claim C6, counterexample: Optimize::check maps the unsatisfiable and
the unknown engine outcomes to the same boolean value, so a caller cannot
tell them apart. -/
theorem claim_C6_counterexample :
    OptimizeImpl.check Lbool.lFalse = OptimizeImpl.check Lbool.lUndef := by
  decide

/-- Claim C6, amended: Optimize::check collapses the three-valued engine
outcome to two values: true exactly on the satisfiable outcome, false on
both the unsatisfiable and the unknown outcomes. -/
theorem claim_C6_amended :
    OptimizeImpl.check Lbool.lTrue = true ∧
    OptimizeImpl.check Lbool.lFalse = false ∧
    OptimizeImpl.check Lbool.lUndef = false := by
  decide

/-- Claim C7, evaluation at the failing input: when the engine formatter
returns the null sentinel, Display for Ast reaches undefined behaviour (the
null pointer is dereferenced inside CStr::from_ptr before the dead
is_null test) instead of returning the formatting error that Display for
Params returns on the same sentinel. -/
theorem claim_C7_code_eval :
    AstImpl.fmt none = FmtOutcome.crash ∧
    AstImpl.fmt none ≠ FmtOutcome.err ∧
    ParamsImpl.fmt none = FmtOutcome.err := by
  decide

/-- Claim C10: Ast::forall_const is exactly the weighted and pattern form
at weight 0 with no patterns, on every input and engine state. -/
theorem claim_C10 (ctx : Nat) (bounds : List AstW) (body : AstW) (st : EngineState) :
    AstImpl.forall_const ctx bounds body st =
      AstImpl.forall_const_weight_patterns ctx 0 bounds [] body st := rfl

/-- Claim C5: with an empty bound-variable set, forall_const, the weighted
and pattern forall variant, and exists_const all return a clone of the body
— a wrapper around the very same term handle, with one reference-count
increment — and allocate no node, so the engine quantifier constructor is
never invoked. -/
theorem claim_C5 (ctx weight : Nat) (patterns : List PatternW) (body : AstW)
    (st : EngineState) (hctx : body.ctx = ctx)
    (hpat : patterns.all (fun p => p.ctx = ctx) = true)
    (hnn : body.z3_ast ≠ 0) :
    AstImpl.forall_const ctx [] body st =
      some (⟨ctx, body.z3_ast⟩, st.incRef body.z3_ast) ∧
    AstImpl.forall_const_weight_patterns ctx weight [] patterns body st =
      some (⟨ctx, body.z3_ast⟩, st.incRef body.z3_ast) ∧
    AstImpl.exists_const ctx [] body st =
      some (⟨ctx, body.z3_ast⟩, st.incRef body.z3_ast) ∧
    (st.incRef body.z3_ast).nodes = st.nodes := by
  subst hctx
  refine ⟨?_, ?_, ?_, rfl⟩ <;>
    simp [AstImpl.forall_const, AstImpl.forall_const_weight_patterns,
      AstImpl.exists_const, AstImpl.clone, AstImpl.new, hpat, hnn]

/-- Claim C5, witness: the short-circuit evaluated at a concrete body in
context 1 on the empty engine. -/
theorem claim_C5_witness :
    (AstW.mk 1 5).ctx = 1 ∧
    AstImpl.forall_const 1 [] ⟨1, 5⟩ EngineState.init =
      some (⟨1, 5⟩, EngineState.init.incRef 5) ∧
    AstImpl.exists_const 1 [] ⟨1, 5⟩ EngineState.init =
      some (⟨1, 5⟩, EngineState.init.incRef 5) := by
  have h := claim_C5 1 0 [] ⟨1, 5⟩ EngineState.init (by decide) (by decide) (by decide)
  exact ⟨rfl, h.1, h.2.2.1⟩

/-- Claim C9: reading back with as_i64 the numeral built by from_i64
yields exactly the value put in, for every signed 64-bit value and every
healthy engine state. -/
theorem claim_C9 (ctx : Nat) (i : Int) (st : EngineState) (hfail : st.fail = false)
    (hlo : -(2 ^ 63) ≤ i) (hhi : i < 2 ^ 63) :
    ∃ a st2, AstImpl.from_i64 ctx i st = some (a, st2) ∧
      AstImpl.as_i64 a st2 = some i := by
  refine ⟨⟨ctx, st.nodes.length + 2⟩, ?_, ?_, ?_⟩
  · exact ((st.alloc Node.intSort).1.incRef (st.nodes.length + 1)).decRef
      (st.nodes.length + 1) |>.alloc (Node.intNumeral i (st.nodes.length + 1)) |>.1
      |>.incRef (st.nodes.length + 2)
  · simp [AstImpl.from_i64, SortImpl.int, Z3_mk_int_sort, Z3_mk_int64, SortImpl.drop,
      AstImpl.new, EngineState.alloc, EngineState.incRef, EngineState.decRef, hfail]
  · have key : (st.nodes ++ [Node.intSort, Node.intNumeral i (st.nodes.length + 1)])[st.nodes.length + 1]? = some (Node.intNumeral i (st.nodes.length + 1)) := by
      have hsplit : st.nodes ++ [Node.intSort, Node.intNumeral i (st.nodes.length + 1)] =
          (st.nodes ++ [Node.intSort]) ++ [Node.intNumeral i (st.nodes.length + 1)] := by
        simp
      rw [hsplit]
      have hlen : (st.nodes ++ [Node.intSort]).length = st.nodes.length + 1 := by simp
      rw [← hlen]
      exact List.getElem?_concat_length _ _
    have hlo2 : (-9223372036854775808 : Int) ≤ i := by norm_num at hlo; exact hlo
    have hhi2 : i < (9223372036854775808 : Int) := by norm_num at hhi; exact hhi
    simp [AstImpl.as_i64, Z3_get_numeral_int64, EngineState.nodeAt, EngineState.alloc,
      EngineState.incRef, EngineState.decRef, hfail, key, hlo2, hhi2]

/-- Claim C9, witness: the round trip evaluated at the value 3 on the empty
engine. -/
theorem claim_C9_witness :
    EngineState.init.fail = false ∧ -(2 ^ 63 : Int) ≤ 3 ∧ (3 : Int) < 2 ^ 63 ∧
    ∃ a st2, AstImpl.from_i64 1 3 EngineState.init = some (a, st2) ∧
      AstImpl.as_i64 a st2 = some 3 :=
  ⟨rfl, by norm_num, by norm_num,
    claim_C9 1 3 EngineState.init rfl (by norm_num) (by norm_num)⟩

namespace Z3Model

theorem ownersCreated_cons (e : AstEvent) (es : List AstEvent) (h : Handle) :
    ownersCreated (e :: es) h =
      (if createsOwner h e then 1 else 0) + ownersCreated es h := by
  simp only [ownersCreated, List.filter_cons]
  split <;> simp [Nat.add_comm]

theorem ownersDropped_cons (e : AstEvent) (es : List AstEvent) (h : Handle) :
    ownersDropped (e :: es) h =
      (if destroysOwner h e then 1 else 0) + ownersDropped es h := by
  simp only [ownersDropped, List.filter_cons]
  split <;> simp [Nat.add_comm]

/-- Over any ownership history that runs to completion, the number of
increments recorded on a handle grows by exactly the number of owners
created for it, and the decrements by exactly the number of owners
destroyed. -/
theorem runAstEvents_balance :
    ∀ (es : List AstEvent) (st st2 : EngineState), runAstEvents es st = some st2 →
    ∀ h, incCount st2 h = incCount st h + ownersCreated es h ∧
         decCount st2 h = decCount st h + ownersDropped es h := by
  intro es
  induction es with
  | nil =>
    intro st st2 hrun h
    simp only [runAstEvents, Option.some.injEq] at hrun
    subst hrun
    simp [ownersCreated, ownersDropped]
  | cons e rest ih =>
    intro st st2 hrun h
    cases e with
    | construct c h0 =>
      by_cases h0z : h0 = 0
      · simp [runAstEvents, AstImpl.new, h0z] at hrun
      · simp only [runAstEvents, AstImpl.new, h0z, if_neg] at hrun
        obtain ⟨hi, hd⟩ := ih _ _ hrun h
        rw [ownersCreated_cons, ownersDropped_cons]
        constructor
        · rw [hi, incCount_incRef]
          simp only [createsOwner, beq_iff_eq]
          by_cases hh : h0 = h <;> simp [hh] <;> omega
        · rw [hd, decCount_incRef]
          simp [destroysOwner]
    | cloneOf a =>
      by_cases h0z : a.z3_ast = 0
      · simp [runAstEvents, AstImpl.clone, AstImpl.new, h0z] at hrun
      · simp only [runAstEvents, AstImpl.clone, AstImpl.new, h0z, if_neg] at hrun
        obtain ⟨hi, hd⟩ := ih _ _ hrun h
        rw [ownersCreated_cons, ownersDropped_cons]
        constructor
        · rw [hi, incCount_incRef]
          simp only [createsOwner, beq_iff_eq]
          by_cases hh : a.z3_ast = h <;> simp [hh] <;> omega
        · rw [hd, decCount_incRef]
          simp [destroysOwner]
    | dropOf a =>
      simp only [runAstEvents] at hrun
      obtain ⟨hi, hd⟩ := ih _ _ hrun h
      rw [ownersCreated_cons, ownersDropped_cons]
      constructor
      · rw [hi]
        simp [AstImpl.drop, incCount_decRef, createsOwner]
      · rw [hd, AstImpl.drop, decCount_decRef]
        simp only [destroysOwner, beq_iff_eq]
        by_cases hh : a.z3_ast = h <;> simp [hh] <;> omega

end Z3Model

/-- Claim C3: constructing a wrapper increments the reference count of the
wrapped handle exactly once and touches no decrement; cloning is a fresh
increment yielding a second owner of the same handle under the same
context; dropping decrements exactly once; and over any ownership history
the recorded increments and decrements grow in one-to-one correspondence
with owners created and destroyed, per handle. -/
theorem claim_C3 :
    (∀ (c : Nat) (h : Handle) (st : EngineState) (r : AstW × EngineState),
      AstImpl.new c h st = some r →
      r.1 = ⟨c, h⟩ ∧
      (∀ x, incCount r.2 x = incCount st x + if h = x then 1 else 0) ∧
      (∀ x, decCount r.2 x = decCount st x)) ∧
    (∀ (a : AstW) (st : EngineState) (r : AstW × EngineState),
      AstImpl.clone a st = some r →
      r.1 = ⟨a.ctx, a.z3_ast⟩ ∧
      (∀ x, incCount r.2 x = incCount st x + if a.z3_ast = x then 1 else 0) ∧
      (∀ x, decCount r.2 x = decCount st x)) ∧
    (∀ (a : AstW) (st : EngineState),
      (∀ x, decCount (AstImpl.drop a st) x =
        decCount st x + if a.z3_ast = x then 1 else 0) ∧
      (∀ x, incCount (AstImpl.drop a st) x = incCount st x)) ∧
    (∀ (es : List AstEvent) (st st2 : EngineState), runAstEvents es st = some st2 →
      ∀ h, incCount st2 h = incCount st h + ownersCreated es h ∧
           decCount st2 h = decCount st h + ownersDropped es h) := by
  refine ⟨?_, ?_, ?_, runAstEvents_balance⟩
  · intro c h st r hr
    by_cases hz : h = 0
    · simp [AstImpl.new, hz] at hr
    · simp [AstImpl.new, hz] at hr
      subst hr
      exact ⟨rfl, fun x => incCount_incRef st h x, fun x => decCount_incRef st h x⟩
  · intro a st r hr
    by_cases hz : a.z3_ast = 0
    · simp [AstImpl.clone, AstImpl.new, hz] at hr
    · simp [AstImpl.clone, AstImpl.new, hz] at hr
      subst hr
      exact ⟨rfl, fun x => incCount_incRef st a.z3_ast x,
        fun x => decCount_incRef st a.z3_ast x⟩
  · intro a st
    exact ⟨fun x => decCount_decRef st a.z3_ast x, fun x => incCount_decRef st a.z3_ast x⟩

/-- Claim C3, witness: the history new, clone, drop, drop on handle 5
records two increments and two decrements on 5. -/
theorem claim_C3_witness :
    runAstEvents [AstEvent.construct 1 5, AstEvent.cloneOf ⟨1, 5⟩,
        AstEvent.dropOf ⟨1, 5⟩, AstEvent.dropOf ⟨1, 5⟩] EngineState.init =
      some { nodes := [], ctors := [], incs := [5, 5], decs := [5, 5],
             freedCtors := [], fail := false } ∧
    incCount { nodes := [], ctors := [], incs := [5, 5], decs := [5, 5],
               freedCtors := [], fail := false } 5 =
      incCount EngineState.init 5 +
        ownersCreated [AstEvent.construct 1 5, AstEvent.cloneOf ⟨1, 5⟩,
          AstEvent.dropOf ⟨1, 5⟩, AstEvent.dropOf ⟨1, 5⟩] 5 ∧
    decCount { nodes := [], ctors := [], incs := [5, 5], decs := [5, 5],
               freedCtors := [], fail := false } 5 =
      decCount EngineState.init 5 +
        ownersDropped [AstEvent.construct 1 5, AstEvent.cloneOf ⟨1, 5⟩,
          AstEvent.dropOf ⟨1, 5⟩, AstEvent.dropOf ⟨1, 5⟩] 5 := by
  have hrun : runAstEvents [AstEvent.construct 1 5, AstEvent.cloneOf ⟨1, 5⟩,
      AstEvent.dropOf ⟨1, 5⟩, AstEvent.dropOf ⟨1, 5⟩] EngineState.init =
      some { nodes := [], ctors := [], incs := [5, 5], decs := [5, 5],
             freedCtors := [], fail := false } := by decide
  have hb := claim_C3.2.2.2 _ _ _ hrun 5
  exact ⟨hrun, hb.1, hb.2⟩

namespace Z3Model

theorem extends_rfl (st : EngineState) : Extends st st :=
  ⟨⟨[], List.append_nil _⟩, ⟨[], List.append_nil _⟩, rfl⟩

theorem extends_trans {a b c : EngineState} (h1 : Extends a b) (h2 : Extends b c) :
    Extends a c := by
  obtain ⟨⟨t1, ht1⟩, ⟨u1, hu1⟩, hf1⟩ := h1
  obtain ⟨⟨t2, ht2⟩, ⟨u2, hu2⟩, hf2⟩ := h2
  refine ⟨⟨t1 ++ t2, ?_⟩, ⟨u1 ++ u2, ?_⟩, hf1.trans hf2⟩
  · rw [← List.append_assoc, ht1, ht2]
  · rw [← List.append_assoc, hu1, hu2]

theorem extends_of_eq {st st2 : EngineState} (h1 : st.nodes = st2.nodes)
    (h2 : st.ctors = st2.ctors) (h3 : st.fail = st2.fail) : Extends st st2 :=
  ⟨⟨[], by rw [List.append_nil, h1]⟩, ⟨[], by rw [List.append_nil, h2]⟩, h3⟩

theorem nodeAt_mono {st st2 : EngineState} {h : Handle} {n : Node}
    (hext : Extends st st2) (hn : st.nodeAt h = some n) : st2.nodeAt h = some n := by
  unfold EngineState.nodeAt at hn ⊢
  by_cases hz : h = 0
  · simp [hz] at hn
  · rw [if_neg hz] at hn ⊢
    obtain ⟨t, ht⟩ := hext.1
    obtain ⟨hlt, -⟩ := List.get?_eq_some.mp hn
    rw [← ht, List.get?_append hlt]
    exact hn

theorem ctorAt_mono {st st2 : EngineState} {h : Handle} {d : ConstructorDescr}
    (hext : Extends st st2) (hd : st.ctorAt h = some d) : st2.ctorAt h = some d := by
  unfold EngineState.ctorAt at hd ⊢
  by_cases hz : h = 0
  · simp [hz] at hd
  · rw [if_neg hz] at hd ⊢
    obtain ⟨t, ht⟩ := hext.2.1
    obtain ⟨hlt, -⟩ := List.get?_eq_some.mp hd
    rw [← ht, List.get?_append hlt]
    exact hd

theorem alloc_spec (st : EngineState) (n : Node) (hfail : st.fail = false) :
    Extends st (st.alloc n).1 ∧ (st.alloc n).1.fail = false ∧ (st.alloc n).2 ≠ 0 ∧
    (st.alloc n).1.nodeAt (st.alloc n).2 = some n := by
  unfold EngineState.alloc
  rw [if_neg (by simp [hfail])]
  refine ⟨⟨⟨[n], rfl⟩, ⟨[], List.append_nil _⟩, hfail.symm ▸ rfl⟩, hfail, by simp, ?_⟩
  unfold EngineState.nodeAt
  rw [if_neg (by simp)]
  simpa using List.get?_concat_length st.nodes n

theorem incRef_extends (st : EngineState) (h : Handle) : Extends st (st.incRef h) :=
  extends_of_eq rfl rfl rfl

theorem decRef_extends (st : EngineState) (h : Handle) : Extends st (st.decRef h) :=
  extends_of_eq rfl rfl rfl

theorem del_constructor_extends (st : EngineState) (c : Nat) (h : Handle) :
    Extends st (Z3_del_constructor st c h) :=
  extends_of_eq rfl rfl rfl

theorem mk_constructor_spec (st : EngineState) (c : Nat) (name recog : String)
    (fnames : List String) (fsorts : List Handle) (hfail : st.fail = false) :
    Extends st (Z3_mk_constructor st c name recog fnames fsorts).1 ∧
    (Z3_mk_constructor st c name recog fnames fsorts).1.fail = false ∧
    (Z3_mk_constructor st c name recog fnames fsorts).2 ≠ 0 ∧
    (Z3_mk_constructor st c name recog fnames fsorts).1.ctorAt
      (Z3_mk_constructor st c name recog fnames fsorts).2 =
      some ⟨name, recog, fnames, fsorts⟩ := by
  unfold Z3_mk_constructor
  rw [if_neg (by simp [hfail])]
  refine ⟨⟨⟨[], List.append_nil _⟩, ⟨[⟨name, recog, fnames, fsorts⟩], rfl⟩, hfail.symm ▸ rfl⟩,
    hfail, by simp, ?_⟩
  unfold EngineState.ctorAt
  rw [if_neg (by simp)]
  simpa using List.get?_concat_length st.ctors ⟨name, recog, fnames, fsorts⟩

end Z3Model

namespace Z3Model

theorem allocAccessors_spec (ctorName : String) :
    ∀ (fnames : List String) (st : EngineState), st.fail = false →
    Extends st (allocAccessors st ctorName fnames).1 ∧
    (allocAccessors st ctorName fnames).1.fail = false ∧
    List.Forall₂ (fun (h : Handle) (fn : String) =>
      h ≠ 0 ∧ (allocAccessors st ctorName fnames).1.nodeAt h =
        some (Node.accessorDecl ctorName fn))
      (allocAccessors st ctorName fnames).2 fnames := by
  intro fnames
  induction fnames with
  | nil =>
    intro st hfail
    exact ⟨extends_rfl st, hfail, List.Forall₂.nil⟩
  | cons fn rest ih =>
    intro st hfail
    obtain ⟨hx1, hf1, hz1, hn1⟩ :=
      alloc_spec st (Node.accessorDecl ctorName fn) hfail
    obtain ⟨hx2, hf2, hall⟩ := ih (st.alloc (Node.accessorDecl ctorName fn)).1 hf1
    refine ⟨?_, ?_, ?_⟩
    · show Extends st (allocAccessors _ ctorName rest).1
      exact extends_trans hx1 hx2
    · exact hf2
    · refine List.Forall₂.cons ⟨hz1, nodeAt_mono hx2 hn1⟩ ?_
      exact hall

theorem query_constructor_spec (st : EngineState) (c : Nat) (h : Handle)
    (numFields : Nat) (d : ConstructorDescr) (hfail : st.fail = false)
    (hd : st.ctorAt h = some d) :
    Extends st (Z3_query_constructor st c h numFields).1 ∧
    (Z3_query_constructor st c h numFields).1.fail = false ∧
    (Z3_query_constructor st c h numFields).2.1 ≠ 0 ∧
    (Z3_query_constructor st c h numFields).1.nodeAt
      (Z3_query_constructor st c h numFields).2.1 =
      some (Node.ctorDecl d.name d.fieldNames.length) ∧
    (Z3_query_constructor st c h numFields).2.2.1 ≠ 0 ∧
    (Z3_query_constructor st c h numFields).1.nodeAt
      (Z3_query_constructor st c h numFields).2.2.1 =
      some (Node.testerDecl d.recognizerName) ∧
    List.Forall₂ (fun (a : Handle) (fn : String) =>
      a ≠ 0 ∧ (Z3_query_constructor st c h numFields).1.nodeAt a =
        some (Node.accessorDecl d.name fn))
      (Z3_query_constructor st c h numFields).2.2.2
      (d.fieldNames.take numFields) := by
  unfold Z3_query_constructor
  rw [hd]
  simp only
  obtain ⟨hx1, hf1, hz1, hn1⟩ := alloc_spec st (Node.ctorDecl d.name d.fieldNames.length) hfail
  obtain ⟨hx2, hf2, hz2, hn2⟩ :=
    alloc_spec (st.alloc (Node.ctorDecl d.name d.fieldNames.length)).1
      (Node.testerDecl d.recognizerName) hf1
  obtain ⟨hx3, hf3, hall⟩ :=
    allocAccessors_spec d.name (d.fieldNames.take numFields) _ hf2
  refine ⟨extends_trans hx1 (extends_trans hx2 hx3), hf3, hz1, ?_, hz2, ?_, hall⟩
  · exact nodeAt_mono hx3 (nodeAt_mono hx2 hn1)
  · exact nodeAt_mono hx3 hn2

theorem wrapAccessors_spec (c : Nat) (ctorName : String) :
    ∀ (hs : List Handle) (fnames : List String) (st : EngineState),
    List.Forall₂ (fun (h : Handle) (fn : String) =>
      h ≠ 0 ∧ st.nodeAt h = some (Node.accessorDecl ctorName fn)) hs fnames →
    ∃ fs st2,
      DatatypeBuilderImpl.finishVariants.wrapAccessors c hs st = some (fs, st2) ∧
      st2.nodes = st.nodes ∧ st2.ctors = st.ctors ∧ st2.fail = st.fail ∧
      List.Forall₂ (fun (f : FuncDeclW) (fn : String) =>
        st.nodeAt f.z3_func_decl = some (Node.accessorDecl ctorName fn)) fs fnames := by
  intro hs
  induction hs with
  | nil =>
    intro fnames st hall
    cases hall
    exact ⟨[], st, rfl, rfl, rfl, rfl, List.Forall₂.nil⟩
  | cons h rest ih =>
    intro fnames st hall
    cases hall with
    | cons hhead htail =>
      rename_i fn fns
      obtain ⟨hz, hn⟩ := hhead
      obtain ⟨fs, st2, heq, hnodes, hctors, hfail, hall2⟩ :=
        ih fns (st.incRef h) htail
      refine ⟨⟨c, h⟩ :: fs, st2, ?_, hnodes, hctors, hfail, ?_⟩
      · unfold DatatypeBuilderImpl.finishVariants.wrapAccessors FuncDeclImpl.from_raw
        rw [if_neg hz]
        simp [heq]
      · exact List.Forall₂.cons hn hall2

end Z3Model

namespace Z3Model

theorem finishVariants_spec (c : Nat) :
    ∀ (staged : List (Nat × Handle)) (inputs : List (String × List (String × SortW)))
      (st : EngineState), st.fail = false → stagedMatch st staged inputs →
    ∃ vs st2, DatatypeBuilderImpl.finishVariants c staged st = some (vs, st2) ∧
      Extends st st2 ∧ st2.fail = false ∧
      List.Forall₂ (declsMatch st2) vs inputs := by
  intro staged
  induction staged with
  | nil =>
    intro inputs st hfail hm
    cases hm
    exact ⟨[], st, rfl, extends_rfl st, hfail, List.Forall₂.nil⟩
  | cons sv rest ih =>
    intro inputs st hfail hm
    obtain ⟨numFields, ch⟩ := sv
    cases hm with
    | cons hhead htail =>
      rename_i inp inps
      obtain ⟨hlen, hcap, hct⟩ := hhead
      obtain ⟨hx1, hf1, hcz, hcn, htz, htn, haccs⟩ :=
        query_constructor_spec st c ch numFields (descrOf inp) hfail hct
      have hx_del : Extends (Z3_query_constructor st c ch numFields).1
          (Z3_del_constructor (Z3_query_constructor st c ch numFields).1 c ch) :=
        del_constructor_extends _ c ch
      have haccs3 : List.Forall₂ (fun (a : Handle) (fn : String) =>
          a ≠ 0 ∧
          (((Z3_del_constructor (Z3_query_constructor st c ch numFields).1 c ch).incRef
            (Z3_query_constructor st c ch numFields).2.1).incRef
            (Z3_query_constructor st c ch numFields).2.2.1).nodeAt a =
            some (Node.accessorDecl (descrOf inp).name fn))
          (Z3_query_constructor st c ch numFields).2.2.2
          ((descrOf inp).fieldNames.take numFields) := haccs
      obtain ⟨accs, st4, heqw, hnodes4, hctors4, hfail4, hallw⟩ :=
        wrapAccessors_spec c (descrOf inp).name
          (Z3_query_constructor st c ch numFields).2.2.2
          ((descrOf inp).fieldNames.take numFields) _ haccs3
      have hx_mid : Extends (Z3_query_constructor st c ch numFields).1 st4 :=
        extends_trans hx_del (extends_trans
          (incRef_extends _ (Z3_query_constructor st c ch numFields).2.1)
          (extends_trans
            (incRef_extends _ (Z3_query_constructor st c ch numFields).2.2.1)
            (extends_of_eq hnodes4.symm hctors4.symm hfail4.symm)))
      have hxTot : Extends st st4 := extends_trans hx1 hx_mid
      have hf4 : st4.fail = false := hfail4.trans hf1
      have htail4 : stagedMatch st4 rest inps := by
        refine htail.imp ?_
        intro a b hab
        exact ⟨hab.1, hab.2.1, ctorAt_mono hxTot hab.2.2⟩
      obtain ⟨vs, st5, heqr, hx5, hf5, hall5⟩ := ih inps st4 hf4 htail4
      have hxq5 : Extends (Z3_query_constructor st c ch numFields).1 st5 :=
        extends_trans hx_mid hx5
      refine ⟨⟨⟨c, (Z3_query_constructor st c ch numFields).2.1⟩,
        ⟨c, (Z3_query_constructor st c ch numFields).2.2.1⟩, accs⟩ :: vs, st5, ?_,
        extends_trans hxTot hx5, hf5, ?_⟩
      · unfold DatatypeBuilderImpl.finishVariants
        rw [if_pos hcap]
        simp only [FuncDeclImpl.from_raw, if_neg hcz, if_neg htz]
        simp only [heqw, heqr]
      · refine List.Forall₂.cons ?_ hall5
        have htake : (descrOf inp).fieldNames.take numFields =
            inp.2.map (fun f => f.1) := by
          have hl : numFields = (inp.2.map (fun f => f.1)).length := by
            simpa using hlen
          rw [descrOf, hl, List.take_length]
        refine ⟨?_, ?_, ?_⟩
        · have := nodeAt_mono hxq5 hcn
          simpa [descrOf] using this
        · have := nodeAt_mono hxq5 htn
          simpa [descrOf] using this
        · rw [htake] at hallw
          have hperf := List.forall₂_map_right_iff.mp hallw
          refine hperf.imp ?_
          intro a b hab
          have hx35 : Extends (((Z3_del_constructor
              (Z3_query_constructor st c ch numFields).1 c ch).incRef
              (Z3_query_constructor st c ch numFields).2.1).incRef
              (Z3_query_constructor st c ch numFields).2.2.1) st5 := by
            refine extends_trans (extends_of_eq hnodes4.symm hctors4.symm hfail4.symm) hx5
          have := nodeAt_mono hx35 hab
          simpa [descrOf] using this

end Z3Model

namespace Z3Model

theorem stageAll_spec (ctx : Nat) :
    ∀ (inputs prior : List (String × List (String × SortW))) (b : DatatypeBuilderW)
      (st : EngineState), st.fail = false → b.ctx = ctx →
    (∀ inp ∈ inputs,
      inp.2.all (fun f => f.2.ctx = ctx) = true ∧ inp.2.length ≤ 0xffffffff) →
    stagedMatch st b.variants prior →
    ∃ b2 st2, DatatypeBuilderImpl.stageAll b inputs st = some (b2, st2) ∧
      b2.ctx = ctx ∧ Extends st st2 ∧ st2.fail = false ∧
      stagedMatch st2 b2.variants (prior ++ inputs) := by
  intro inputs
  induction inputs with
  | nil =>
    intro prior b st hfail hctx hok hm
    exact ⟨b, st, rfl, hctx, extends_rfl st, hfail, by simpa using hm⟩
  | cons inp rest ih =>
    intro prior b st hfail hctx hok hm
    obtain ⟨hall, hlen⟩ := hok inp (by simp)
    obtain ⟨hx1, hf1, hz1, hc1⟩ := mk_constructor_spec st b.ctx inp.1 ("is-" ++ inp.1)
      (inp.2.map (fun f => f.1)) (inp.2.map (fun f => f.2.z3_sort)) hfail
    have hallb : inp.2.all (fun f => f.2.ctx = b.ctx) = true := by
      rw [hctx]; exact hall
    have hm1 : stagedMatch
        (Z3_mk_constructor st b.ctx inp.1 ("is-" ++ inp.1)
          (inp.2.map (fun f => f.1)) (inp.2.map (fun f => f.2.z3_sort))).1
        (b.variants ++ [(inp.2.length,
          (Z3_mk_constructor st b.ctx inp.1 ("is-" ++ inp.1)
            (inp.2.map (fun f => f.1)) (inp.2.map (fun f => f.2.z3_sort))).2)])
        (prior ++ [inp]) := by
      refine List.rel_append ?_ ?_
      · refine hm.imp ?_
        intro a b2 hab
        exact ⟨hab.1, hab.2.1, ctorAt_mono hx1 hab.2.2⟩
      · exact List.Forall₂.cons ⟨rfl, hlen, hc1⟩ List.Forall₂.nil
    obtain ⟨b2, st2, heqr, hbctx, hx2, hf2, hm2⟩ :=
      ih (prior ++ [inp])
        ⟨b.ctx, b.variants ++ [(inp.2.length,
          (Z3_mk_constructor st b.ctx inp.1 ("is-" ++ inp.1)
            (inp.2.map (fun f => f.1)) (inp.2.map (fun f => f.2.z3_sort))).2)]⟩
        _ hf1 hctx (fun i hi => hok i (by simp [hi])) hm1
    refine ⟨b2, st2, ?_, hbctx, extends_trans hx1 hx2, hf2, ?_⟩
    · unfold DatatypeBuilderImpl.stageAll DatatypeBuilderImpl.variant
      rw [if_pos hallb, if_pos hlen]
      simpa using heqr
    · simpa [List.append_assoc] using hm2

end Z3Model

/-- Claim C8: staging variants through DatatypeBuilder::variant and calling
finish produces a Datatype whose variants appear in exactly the order the
variant calls were made, and whose per-variant accessors pair up one to
one, in declaration order, with the declared fields — with the constructor
and tester declarations recovered for that same variant. -/
theorem claim_C8 (ctx : Nat) (inputs : List (String × List (String × SortW)))
    (name : String) (st : EngineState) (hfail : st.fail = false)
    (hok : ∀ inp ∈ inputs,
      inp.2.all (fun f => f.2.ctx = ctx) = true ∧ inp.2.length ≤ 0xffffffff)
    (hcount : inputs.length ≤ 0xffffffff) :
    ∃ dt st2, DatatypeBuilderImpl.buildDatatype ctx inputs name st = some (dt, st2) ∧
      dt.variants.length = inputs.length ∧
      List.Forall₂ (declsMatch st2) dt.variants inputs := by
  obtain ⟨b2, st1, heqs, hbctx, hx1, hf1, hm⟩ :=
    stageAll_spec ctx inputs [] (DatatypeBuilderImpl.new ctx) st hfail rfl hok
      (by exact List.Forall₂.nil)
  simp only [List.nil_append] at hm
  have hblen : b2.variants.length = inputs.length := hm.length_eq
  obtain ⟨hxa, hfa, hza, hna⟩ := alloc_spec st1 (Node.datatypeSort name) hf1
  have hf1a : ((st1.alloc (Node.datatypeSort name)).1.incRef
      (st1.alloc (Node.datatypeSort name)).2).fail = false := hfa
  have hm1 : stagedMatch ((st1.alloc (Node.datatypeSort name)).1.incRef
      (st1.alloc (Node.datatypeSort name)).2) b2.variants inputs := by
    refine hm.imp ?_
    intro a b hab
    refine ⟨hab.1, hab.2.1, ctorAt_mono ?_ hab.2.2⟩
    exact extends_trans hxa (incRef_extends _ _)
  obtain ⟨vs, stF, heqf, hxf, hff, hallf⟩ :=
    finishVariants_spec b2.ctx b2.variants inputs
      ((st1.alloc (Node.datatypeSort name)).1.incRef
        (st1.alloc (Node.datatypeSort name)).2) hf1a hm1
  refine ⟨⟨b2.ctx, ⟨b2.ctx, (st1.alloc (Node.datatypeSort name)).2⟩, vs⟩, stF, ?_, ?_, ?_⟩
  · have hfin : DatatypeBuilderImpl.finish b2 name st1 =
        some (⟨b2.ctx, ⟨b2.ctx, (st1.alloc (Node.datatypeSort name)).2⟩, vs⟩, stF) := by
      unfold DatatypeBuilderImpl.finish
      rw [if_pos (by simpa [hblen] using hcount)]
      simp only [Z3_mk_datatype]
      rw [heqf]
    unfold DatatypeBuilderImpl.buildDatatype
    rw [heqs]
    simpa using hfin
  · simpa [hblen] using hallf.length_eq
  · exact hallf

/-- Claim C8, witness: a two-variant datatype in the shape of an integer
option type, staged and finished on the empty engine. -/
theorem claim_C8_witness :
    EngineState.init.fail = false ∧
    (∀ inp ∈ [(("negative", []) : String × List (String × SortW)),
        ("value", [("of", (⟨1, 9⟩ : SortW)), ("scale", (⟨1, 10⟩ : SortW))])],
      inp.2.all (fun f => f.2.ctx = 1) = true ∧ inp.2.length ≤ 0xffffffff) ∧
    ∃ dt st2, DatatypeBuilderImpl.buildDatatype 1
        [("negative", []), ("value", [("of", ⟨1, 9⟩), ("scale", ⟨1, 10⟩)])]
        "Money" EngineState.init = some (dt, st2) ∧
      dt.variants.length = 2 ∧
      List.Forall₂ (declsMatch st2) dt.variants
        [("negative", []), ("value", [("of", ⟨1, 9⟩), ("scale", ⟨1, 10⟩)])] :=
  ⟨rfl, by decide,
    claim_C8 1 [("negative", []), ("value", [("of", ⟨1, 9⟩), ("scale", ⟨1, 10⟩)])]
      "Money" EngineState.init rfl (by decide) (by decide)⟩
